import Mathlib

/-!
# Saved-analysis persistence and query layer: a shallow embedding

This development embeds the saved-analysis persistence/query subsystem of the
rental-profitability repository: the `SavedAnalysis` data model
(`src/types/saved-analysis.ts`), the `AnalysisStorage` localStorage adapter
(`src/lib/localStorage.ts`), the `analysisStore` repository
(`src/lib/analysisStore.ts`), the list-query pipeline of
`src/app/api/analyses/route.ts` (filter, sort, paginate), and the DELETE
handler of `src/app/api/analyses/[id]/route.ts`.

Modelling conventions:
* JavaScript `number` fields are modelled as `ℚ` (the claims never exercise
  float rounding); ISO date strings are modelled by their epoch value as `Nat`
  (`new Date(s)` comparisons become `Nat` comparisons), and each operation's
  `Date.now()` / `new Date()` calls are a single explicit `now : Nat` argument.
* `localStorage` state is modelled as the parsed content of the two keys the
  adapter uses, plus an availability flag (`isLocalStorageAvailable`).
* JavaScript truthiness tests on optional filter fields (`if (filters.x)`)
  are modelled by explicit truthiness functions (`0`, `''`, `undefined` falsy).
* `Array.prototype.sort` is called by the route with a comparator that never
  returns `0`; for such an inconsistent comparator ECMAScript leaves the
  result order implementation-defined.  The model uses a stable insertion
  sort w.r.t. `comparator ≤ 0`; none of the results below depend on the
  order the model assigns to tied records.
-/

namespace RentalAnalysis

/-! ## Data model (`src/types/saved-analysis.ts`) -/

/-- `SavedAnalysis['metadata']['status']` union type. -/
inductive Status where
  | draft
  | sent_to_client
  | client_responded
  | published
  | archived
deriving Repr, DecidableEq

/-- `'CLP' | 'UF'` currency tag. -/
inductive Currency where
  | CLP
  | UF
deriving Repr, DecidableEq

/-- `'A' | 'B' | 'C'` plan identifier. -/
inductive PlanId where
  | A
  | B
  | C
deriving Repr, DecidableEq

/-- The `property` sub-object of `SavedAnalysis`. -/
structure Property where
  address : String
  value_clp : ℚ
  value_uf : Option ℚ
  size_m2 : ℚ
  bedrooms : ℚ
  bathrooms : ℚ
  parking_spaces : ℚ
  storage_units : ℚ
deriving Repr, DecidableEq

/-- One element of `analysis.comparable_properties`. -/
structure ComparableProperty where
  address : Option String
  size_m2 : Option ℚ
  bedrooms : Option ℚ
  bathrooms : Option ℚ
  parking_spaces : Option ℚ
  storage_units : Option ℚ
  rent_clp : Option ℚ
deriving Repr, DecidableEq

/-- `analysis.annual_expenses`. -/
structure AnnualExpenses where
  maintenance_clp : ℚ
  property_tax_clp : ℚ
  insurance_clp : ℚ
deriving Repr, DecidableEq

/-- The `analysis` sub-object of `SavedAnalysis`. -/
structure AnalysisSection where
  suggested_rent_clp : Option ℚ
  suggested_rent_uf : Option ℚ
  rent_currency : Currency
  capture_price_clp : Option ℚ
  capture_price_uf : Option ℚ
  capture_price_currency : Option Currency
  comparable_properties : List ComparableProperty
  annual_expenses : AnnualExpenses
  uf_value_clp : ℚ
deriving Repr, DecidableEq

/-- One element of `calculations.plan_comparisons`. -/
structure PlanComparison where
  plan_id : PlanId
  expected_rental_time : ℚ
  total_commission : ℚ
  net_annual_income : ℚ
  vacancy_risk_score : ℚ
  recommendation_score : ℚ
deriving Repr, DecidableEq

/-- The `calculations` sub-object of `SavedAnalysis`. -/
structure Calculations where
  cap_rate : ℚ
  annual_rental_yield : ℚ
  monthly_net_income : ℚ
  vacancy_cost_per_month : ℚ
  break_even_rent_reduction : ℚ
  plan_comparisons : List PlanComparison
deriving Repr, DecidableEq

/-- The `metadata` sub-object of `SavedAnalysis`.  The ISO date strings
`created_at` / `updated_at` are modelled by their epoch value. -/
structure Metadata where
  created_at : Nat
  updated_at : Nat
  broker_email : String
  status : Status
  tags : Option (List String)
  notes : Option String
deriving Repr, DecidableEq

/-- The persisted unit (`SavedAnalysis`). -/
structure SavedAnalysis where
  id : String
  title : String
  property : Property
  analysis : AnalysisSection
  calculations : Calculations
  metadata : Metadata
deriving Repr, DecidableEq

/-- `AnalysisFilters['sortBy']` union type. -/
inductive SortBy where
  | created_at
  | updated_at
  | property_value
  | title
deriving Repr, DecidableEq

/-- `AnalysisFilters['sortOrder']` union type. -/
inductive SortOrder where
  | asc
  | desc
deriving Repr, DecidableEq

/-- `AnalysisFilters`: the list-query filter/sort specification.  The GET
route defaults `sortBy` to `updated_at` and `sortOrder` to `desc`, so the
two sort fields are non-optional here, matching the route's `filters` value
after its `|| 'updated_at'` / `|| 'desc'` defaults. -/
structure AnalysisFilters where
  search : Option String
  status : Option Status
  dateFrom : Option Nat
  dateTo : Option Nat
  minValue : Option ℚ
  maxValue : Option ℚ
  bedrooms : Option ℚ
  bathrooms : Option ℚ
  tags : Option (List String)
  sortBy : SortBy
  sortOrder : SortOrder
deriving Repr, DecidableEq

/-- `AnalysisListResponse`: the GET route's success payload. -/
structure AnalysisListResponse where
  analyses : List SavedAnalysis
  total : Nat
  page : Nat
  pageSize : Nat
  hasMore : Bool
deriving Repr, DecidableEq

/-! ## Small JavaScript-semantics helpers -/

/-- `startsWithChars h n` models: the char list `h` starts with `n`. -/
def startsWithChars : List Char → List Char → Bool
  | _, [] => true
  | [], _ :: _ => false
  | a :: h, b :: n => a == b && startsWithChars h n

/-- `containsChars h n` models: `n` occurs contiguously inside `h`. -/
def containsChars : List Char → List Char → Bool
  | [], n => n.isEmpty
  | a :: h, n => startsWithChars (a :: h) n || containsChars h n

/-- Model of JavaScript `hay.includes(sub)` on strings. -/
def jsIncludes (hay sub : String) : Bool :=
  containsChars hay.data sub.data

/-- Model of JavaScript `String.prototype.toLowerCase` (per-character lowering;
kernel-reducible, unlike `String.toLower`'s `mapAux`). -/
def jsToLower (s : String) : String :=
  ⟨s.data.map Char.toLower⟩

/-- JavaScript truthiness of an optional string (`undefined` and `''` falsy). -/
def truthyStr : Option String → Bool
  | none => false
  | some s => !(s == "")

/-- JavaScript truthiness of an optional number (`undefined` and `0` falsy;
`NaN` does not arise in the rational model). -/
def truthyNum : Option ℚ → Bool
  | none => false
  | some v => !(v == 0)

/-! ## Dashboard data (`src/lib/localStorage.ts`) -/

/-- `DashboardActivity['type']` union type. -/
inductive ActivityType where
  | analysis_created
  | rental_sent
  | client_response
  | price_updated
deriving Repr, DecidableEq

/-- `DashboardActivity`: one entry of the dashboard activity log. -/
structure DashboardActivity where
  id : String
  type : ActivityType
  title : String
  description : String
  date : Nat
  property_address : Option String
deriving Repr, DecidableEq

/-- `DashboardData`: the derived dashboard aggregate. -/
structure DashboardData where
  totalAnalyses : Nat
  activeRentals : Nat
  totalRevenue : ℚ
  averageRentability : ℚ
  recentActivity : List DashboardActivity
deriving Repr, DecidableEq

/-- The zeroed `DashboardData` returned by `getDashboardData` when the
store is unavailable or empty. -/
def emptyDashboardData : DashboardData :=
  { totalAnalyses := 0
    activeRentals := 0
    totalRevenue := 0
    averageRentability := 0
    recentActivity := [] }

/-! ## The localStorage state

`LocalStore` models the browser store as seen through the adapter's two keys:
`rental_analyses` (parsed collection; `[]` when the key is absent or its
content is malformed, matching the fail-closed `catch` branches) and
`dashboard_data` (parsed `DashboardData`, `none` when absent), plus the
`isLocalStorageAvailable()` flag. -/

structure LocalStore where
  available : Bool
  analyses : List SavedAnalysis
  dashboard : Option DashboardData
deriving Repr, DecidableEq

/-- `{...r, metadata: {...r.metadata, updated_at: now}}`: the record with its
update timestamp forcibly stamped. -/
def stampUpdated (r : SavedAnalysis) (now : Nat) : SavedAnalysis :=
  { r with metadata := { r.metadata with updated_at := now } }

/-- Model of JavaScript `Array.prototype.findIndex` (restricted to successful
lookup as an `Option`; the source only compares the result with `>= 0`). -/
def findIndexBy (p : SavedAnalysis → Bool) : List SavedAnalysis → Option Nat
  | [] => none
  | a :: t => if p a then some 0 else (findIndexBy p t).map (· + 1)

/-- Stable insertion of `x` into `l`, placing `x` before the first element
`y` with `le x y`. -/
def insertSorted (le : α → α → Bool) (x : α) : List α → List α
  | [] => [x]
  | y :: t => if le x y then x :: y :: t else y :: insertSorted le x t

/-- Stable insertion sort; models a stable `Array.prototype.sort` for a
comparator whose `≤`-relation is `le`. -/
def sortByLe (le : α → α → Bool) : List α → List α
  | [] => []
  | x :: t => insertSorted le x (sortByLe le t)

namespace AnalysisStorage

/-- `AnalysisStorage.getAll`: returns the stored collection, `[]` when the
store is unavailable (or the content failed to parse, which the parsed-state
model folds into `analyses = []`). -/
def getAll (s : LocalStore) : List SavedAnalysis :=
  if s.available then s.analyses else []

/-- `AnalysisStorage.getRecentActivity`: synthesizes activity entries from the
stored analyses (a creation entry for every record, plus a sent entry for
records with status `sent_to_client`), sorts them most-recent-first (the
source's comparator `new Date(b.date) - new Date(a.date)` is consistent, so
the sort is the stable descending-by-date sort), and keeps the first 20. -/
def getRecentActivity (s : LocalStore) : List DashboardActivity :=
  let analyses := getAll s
  let activities := analyses.flatMap fun a =>
    { id := "analysis_" ++ a.id
      type := ActivityType.analysis_created
      title := "Nuevo análisis creado"
      description := "\"" ++ a.title ++ "\""
      date := a.metadata.created_at
      property_address := some a.property.address } ::
    (if a.metadata.status == Status.sent_to_client then
      [{ id := "sent_" ++ a.id
         type := ActivityType.rental_sent
         title := "Propuesta enviada"
         description := "Análisis \"" ++ a.title ++ "\" enviado al cliente"
         date := a.metadata.updated_at
         property_address := some a.property.address }]
     else [])
  (sortByLe (fun x y => decide (y.date ≤ x.date)) activities).take 20

/-- The `DashboardData` value assembled by `updateDashboardStats` from the
current collection. -/
def computeDashboardData (s : LocalStore) : DashboardData :=
  let analyses := getAll s
  { totalAnalyses := analyses.length
    activeRentals := (analyses.filter fun a =>
      a.metadata.status == Status.sent_to_client
        || a.metadata.status == Status.published).length
    totalRevenue := analyses.foldl
      (fun sum a => sum + (a.analysis.suggested_rent_clp.getD 0)) 0
    averageRentability :=
      if analyses.length > 0 then
        (analyses.foldl (fun sum a => sum + a.calculations.cap_rate) 0)
          / (analyses.length : ℚ)
      else 0
    recentActivity := getRecentActivity s }

/-- `AnalysisStorage.updateDashboardStats`: recomputes the dashboard aggregate
from the stored collection and writes it back (the write is guarded by the
availability check). -/
def updateDashboardStats (s : LocalStore) : LocalStore :=
  let d := computeDashboardData s
  if s.available then { s with dashboard := some d } else s

/-- `AnalysisStorage.save`: upsert-by-id.  If a record with the same `id`
exists (first `findIndex` match) it is replaced by the argument with
`updated_at` stamped to now; otherwise the argument is appended unchanged.
Returns `false` without touching the store when unavailable. -/
def save (analysis : SavedAnalysis) (now : Nat) (s : LocalStore) :
    Bool × LocalStore :=
  if !s.available then (false, s)
  else
    let analyses := getAll s
    let analyses' :=
      match findIndexBy (fun a => a.id == analysis.id) analyses with
      | some i => analyses.set i (stampUpdated analysis now)
      | none => analyses ++ [analysis]
    (true, updateDashboardStats { s with analyses := analyses' })

/-- `AnalysisStorage.getById`: first record with the given id, through
`getAll` (so absent whenever the store is unavailable). -/
def getById (id : String) (s : LocalStore) : Option SavedAnalysis :=
  (getAll s).find? (fun a => a.id == id)

/-- `AnalysisStorage.delete`: filters out every record with the given id and
rewrites the collection, then recomputes dashboard statistics; returns `true`
whenever the store is available, whether or not a record was removed. -/
def delete (id : String) (s : LocalStore) : Bool × LocalStore :=
  if !s.available then (false, s)
  else
    let analyses := getAll s
    let filteredAnalyses := analyses.filter (fun a => !(a.id == id))
    (true, updateDashboardStats { s with analyses := filteredAnalyses })

/-- `AnalysisStorage.getDashboardData`: zeroed data when unavailable; the
stored aggregate when present; otherwise recomputes via
`updateDashboardStats` and re-reads.  Returns the (possibly updated) store
alongside, since the recompute path writes. -/
def getDashboardData (s : LocalStore) : DashboardData × LocalStore :=
  if !s.available then (emptyDashboardData, s)
  else
    match s.dashboard with
    | some d => (d, s)
    | none =>
      let s' := updateDashboardStats s
      match s'.dashboard with
      | some d => (d, s')
      | none => (emptyDashboardData, s')

/-- `AnalysisStorage.addDashboardActivity`: prepends the activity to the
current log and keeps the first 20 entries.  No-op when unavailable. -/
def addDashboardActivity (activity : DashboardActivity) (s : LocalStore) :
    LocalStore :=
  if !s.available then s
  else
    let (currentData, s') := getDashboardData s
    let recentActivities := (activity :: currentData.recentActivity).take 20
    { s' with dashboard := some { currentData with recentActivity := recentActivities } }

/-- Render a status the way JavaScript template literals do. -/
def statusText : Status → String
  | Status.draft => "draft"
  | Status.sent_to_client => "sent_to_client"
  | Status.client_responded => "client_responded"
  | Status.published => "published"
  | Status.archived => "archived"

/-- `AnalysisStorage.updateStatus`: finds the record by id, overwrites its
`status` and `updated_at` in place, writes the collection back and appends a
`rental_sent` activity entry; returns `false` when the id is absent (in
particular whenever the store is unavailable, since `getAll` is then empty).
The inner availability guard models the `try/catch` around `setItem`. -/
def updateStatus (id : String) (status : Status) (now : Nat)
    (s : LocalStore) : Bool × LocalStore :=
  let analyses := getAll s
  match findIndexBy (fun a => a.id == id) analyses with
  | none => (false, s)
  | some i =>
    match analyses[i]? with
    | none => (false, s)
    | some a =>
      let a' := { a with metadata :=
        { a.metadata with status := status, updated_at := now } }
      if s.available then
        (true, addDashboardActivity
          { id := "activity_" ++ toString now
            type := ActivityType.rental_sent
            title := "Estado actualizado: " ++ statusText status
            description := "Análisis \"" ++ a'.title ++ "\" cambió a "
              ++ statusText status
            date := now
            property_address := some a'.property.address }
          { s with analyses := analyses.set i a' })
      else (false, s)

/-- `AnalysisStorage.clearAll`: removes both keys; `false` when unavailable. -/
def clearAll (s : LocalStore) : Bool × LocalStore :=
  if !s.available then (false, s)
  else (true, { s with analyses := [], dashboard := none })

end AnalysisStorage

/-! ## The read-through cache façade

Modelled from the spec: `src/lib/cache/analysisCache` is imported by the
repository (`src/lib/analysisStore.ts`) but its implementation file is not in
the repository snapshot.  Per spec §4.3 the façade memoizes single records
(`get`/`set`/`invalidate`) and the one unparameterized list-all query
(`getList({})`/`setList({}, ·)`/`invalidateLists`) with a fixed
time-to-live (the repository comments say five minutes); an expired entry is
treated like an absent one on read (lazy expiry). -/

/-- Modelled from the spec: the cache's fixed time-to-live, in milliseconds
("Guardar en cache por 5 minutos"). -/
def cacheTTL : Nat := 5 * 60 * 1000

/-- Modelled from the spec: the façade's state — per-id entries and the single
list-all slot, each remembering when it was stored. -/
structure AnalysisCache where
  entries : List (String × SavedAnalysis × Nat)
  listAll : Option (List SavedAnalysis × Nat)
deriving Repr, DecidableEq

namespace AnalysisCache

/-- Modelled from the spec: `analysisCache.get(id)`; `none` on miss or when
the entry's TTL has elapsed. -/
def get (c : AnalysisCache) (id : String) (now : Nat) : Option SavedAnalysis :=
  match c.entries.find? (fun e => e.1 == id) with
  | some (_, r, storedAt) => if now < storedAt + cacheTTL then some r else none
  | none => none

/-- Modelled from the spec: `analysisCache.set(id, record)`. -/
def set (c : AnalysisCache) (id : String) (r : SavedAnalysis) (now : Nat) :
    AnalysisCache :=
  { c with entries := (id, r, now) :: c.entries.filter (fun e => !(e.1 == id)) }

/-- Modelled from the spec: `analysisCache.invalidate(id)`. -/
def invalidate (c : AnalysisCache) (id : String) : AnalysisCache :=
  { c with entries := c.entries.filter (fun e => !(e.1 == id)) }

/-- Modelled from the spec: `analysisCache.getList({})` — the façade caches
only the unparameterized list-all query. -/
def getList (c : AnalysisCache) (now : Nat) : Option (List SavedAnalysis) :=
  match c.listAll with
  | some (l, storedAt) => if now < storedAt + cacheTTL then some l else none
  | none => none

/-- Modelled from the spec: `analysisCache.setList({}, records)`. -/
def setList (c : AnalysisCache) (l : List SavedAnalysis) (now : Nat) :
    AnalysisCache :=
  { c with listAll := some (l, now) }

/-- Modelled from the spec: `analysisCache.invalidateLists()`. -/
def invalidateLists (c : AnalysisCache) : AnalysisCache :=
  { c with listAll := none }

end AnalysisCache

/-! ## The analysis repository (`src/lib/analysisStore.ts`) -/

/-- The repository's composite state: the backing store plus the cache. -/
structure RepoState where
  store : LocalStore
  cache : AnalysisCache
deriving Repr, DecidableEq

/-- `getAllAnalyses`: cache-first full list.  (`initializeWithExampleData` is
a no-op in the source and is omitted.) -/
def getAllAnalyses (now : Nat) (st : RepoState) :
    List SavedAnalysis × RepoState :=
  match st.cache.getList now with
  | some cached => (cached, st)
  | none =>
    let result := AnalysisStorage.getAll st.store
    (result, { st with cache := st.cache.setList result now })

/-- `getAnalysisById`: cache-first single lookup; caches the record on a
successful store read. -/
def getAnalysisById (id : String) (now : Nat) (st : RepoState) :
    Option SavedAnalysis × RepoState :=
  match st.cache.get id now with
  | some cached => (some cached, st)
  | none =>
    match AnalysisStorage.getById id st.store with
    | some result => (some result, { st with cache := st.cache.set id result now })
    | none => (none, st)

/-- `saveAnalysis`: persists via the adapter; on success caches the record as
given, invalidates cached lists and appends a dashboard activity entry; on
adapter failure throws (`Except.error`). -/
def saveAnalysis (analysis : SavedAnalysis) (now : Nat) (st : RepoState) :
    Except String SavedAnalysis × RepoState :=
  let (success, store') := AnalysisStorage.save analysis now st.store
  if success then
    let cache' := (st.cache.set analysis.id analysis now).invalidateLists
    let store'' := AnalysisStorage.addDashboardActivity
      { id := "save_" ++ toString now
        type := ActivityType.analysis_created
        title := "Análisis guardado"
        description := "\"" ++ analysis.title ++ "\" guardado exitosamente"
        date := now
        property_address := some analysis.property.address }
      store'
    (Except.ok analysis, { store := store'', cache := cache' })
  else
    (Except.error "Error al guardar el análisis", { st with store := store' })

/-- `deleteAnalysis`: reads the record for the log, deletes via the adapter;
on success invalidates the entry and the cached lists and (when the record
existed) appends a dashboard activity entry. -/
def deleteAnalysis (id : String) (now : Nat) (st : RepoState) :
    Bool × RepoState :=
  let analysis := AnalysisStorage.getById id st.store
  let (success, store') := AnalysisStorage.delete id st.store
  if success then
    let cache' := (st.cache.invalidate id).invalidateLists
    let store'' :=
      match analysis with
      | some a => AnalysisStorage.addDashboardActivity
          { id := "delete_" ++ toString now
            type := ActivityType.analysis_created
            title := "Análisis eliminado"
            description := "\"" ++ a.title ++ "\" fue eliminado"
            date := now
            property_address := some a.property.address }
          store'
      | none => store'
    (true, { store := store'', cache := cache' })
  else (false, { st with store := store' })

/-- `Partial<SavedAnalysis>`: every top-level field optional; a present
`metadata` is a full metadata object (TypeScript's `Partial` is shallow), and
spreading it overrides every metadata key. -/
structure PartialSavedAnalysis where
  id : Option String
  title : Option String
  property : Option Property
  analysis : Option AnalysisSection
  calculations : Option Calculations
  metadata : Option Metadata
deriving Repr, DecidableEq

/-- The empty partial update (`{}`). -/
def PartialSavedAnalysis.empty : PartialSavedAnalysis :=
  { id := none, title := none, property := none, analysis := none
    calculations := none, metadata := none }

/-- The merge `{...existing, ...updates, metadata: {...existing.metadata,
...updates.metadata, updated_at: now}}` performed by `updateAnalysis`:
top-level fields supplied in the partial replace the existing ones (including
`id`), the metadata object — when supplied — replaces every metadata key
(including `created_at`), and `updated_at` is forced to now. -/
def mergeUpdate (existing : SavedAnalysis) (updates : PartialSavedAnalysis)
    (now : Nat) : SavedAnalysis :=
  { id := updates.id.getD existing.id
    title := updates.title.getD existing.title
    property := updates.property.getD existing.property
    analysis := updates.analysis.getD existing.analysis
    calculations := updates.calculations.getD existing.calculations
    metadata :=
      { (updates.metadata.getD existing.metadata) with updated_at := now } }

/-- `updateAnalysis`: reads the existing record, merges the partial, saves,
and on success caches the merged record under the route id and invalidates
cached lists; `none` when the id is absent or the save fails. -/
def updateAnalysis (id : String) (updates : PartialSavedAnalysis) (now : Nat)
    (st : RepoState) : Option SavedAnalysis × RepoState :=
  match AnalysisStorage.getById id st.store with
  | none => (none, st)
  | some existingAnalysis =>
    let updatedAnalysis := mergeUpdate existingAnalysis updates now
    let (success, store') := AnalysisStorage.save updatedAnalysis now st.store
    if success then
      let cache' := (st.cache.set id updatedAnalysis now).invalidateLists
      (some updatedAnalysis, { store := store', cache := cache' })
    else (none, { st with store := store' })

/-- `updateAnalysisStatus`: delegates to the adapter's `updateStatus`; on
success invalidates the entry and the cached lists. -/
def updateAnalysisStatus (id : String) (status : Status) (now : Nat)
    (st : RepoState) : Bool × RepoState :=
  let (success, store') := AnalysisStorage.updateStatus id status now st.store
  if success then
    (true, { store := store', cache := (st.cache.invalidate id).invalidateLists })
  else (false, { st with store := store' })

/-! ## The DELETE handler (`src/app/api/analyses/[id]/route.ts`) -/

/-- The observable outcomes of the DELETE route handler. -/
inductive DeleteResult where
  | badRequest
  | notFound
  | forbidden
  | serverError
  | ok (id : String) (title : String) (address : String)
deriving Repr, DecidableEq

/-- The DELETE handler: 400 on an empty id, 404 when the (cache-first) lookup
fails, 403 when the record's status is `published` (the record is left
untouched), 500 when the repository delete reports failure, otherwise 200
with a summary of the deleted record. -/
def deleteRoute (id : String) (now : Nat) (st : RepoState) :
    DeleteResult × RepoState :=
  if id == "" then (DeleteResult.badRequest, st)
  else
    let (found, st₁) := getAnalysisById id now st
    match found with
    | none => (DeleteResult.notFound, st₁)
    | some analysis =>
      if analysis.metadata.status == Status.published then
        (DeleteResult.forbidden, st₁)
      else
        let (deleted, st₂) := deleteAnalysis id now st₁
        if !deleted then (DeleteResult.serverError, st₂)
        else (DeleteResult.ok analysis.id analysis.title
          analysis.property.address, st₂)

/-! ## The list-query pipeline (`src/app/api/analyses/route.ts`, GET) -/

/-- The filter cascade of the GET handler, in source order: search, status,
minValue, maxValue, bedrooms, bathrooms, tags, dateFrom, dateTo.  Each stage
is guarded by the source's JavaScript truthiness test, so a missing field, an
empty search string, a zero numeric bound and an empty tag list all skip
their stage. -/
def applyFilters (filters : AnalysisFilters) (analyses : List SavedAnalysis) :
    List SavedAnalysis :=
  let bySearch :=
    if truthyStr filters.search then
      let searchLower := jsToLower (filters.search.getD "")
      analyses.filter fun a =>
        jsIncludes (jsToLower a.title) searchLower
          || jsIncludes (jsToLower a.property.address) searchLower
    else analyses
  let byStatus :=
    match filters.status with
    | some s => bySearch.filter fun a => a.metadata.status == s
    | none => bySearch
  let byMin :=
    if truthyNum filters.minValue then
      byStatus.filter fun a => decide (filters.minValue.getD 0 ≤ a.property.value_clp)
    else byStatus
  let byMax :=
    if truthyNum filters.maxValue then
      byMin.filter fun a => decide (a.property.value_clp ≤ filters.maxValue.getD 0)
    else byMin
  let byBedrooms :=
    if truthyNum filters.bedrooms then
      byMax.filter fun a => a.property.bedrooms == filters.bedrooms.getD 0
    else byMax
  let byBathrooms :=
    if truthyNum filters.bathrooms then
      byBedrooms.filter fun a => a.property.bathrooms == filters.bathrooms.getD 0
    else byBedrooms
  let byTags :=
    match filters.tags with
    | some ts =>
      if 0 < ts.length then
        byBathrooms.filter fun a =>
          ts.any fun tag =>
            match a.metadata.tags with
            | some recordTags => recordTags.contains tag
            | none => false
      else byBathrooms
    | none => byBathrooms
  let byDateFrom :=
    match filters.dateFrom with
    | some fromDate => byTags.filter fun a => decide (fromDate ≤ a.metadata.created_at)
    | none => byTags
  match filters.dateTo with
  | some toDate => byDateFrom.filter fun a => decide (a.metadata.created_at ≤ toDate)
  | none => byDateFrom

/-- The sort key selected by `filters.sortBy` (title is a string, property
value a number, the date keys epoch values). -/
inductive SortKeyVal where
  | str (s : String)
  | num (q : ℚ)
  | time (t : Nat)
deriving Repr, DecidableEq

/-- `aValue`/`bValue` of the GET handler's sort comparator. -/
def sortKey (filters : AnalysisFilters) (a : SavedAnalysis) : SortKeyVal :=
  match filters.sortBy with
  | SortBy.title => SortKeyVal.str a.title
  | SortBy.property_value => SortKeyVal.num a.property.value_clp
  | SortBy.created_at => SortKeyVal.time a.metadata.created_at
  | SortBy.updated_at => SortKeyVal.time a.metadata.updated_at

/-- Strict `>` on sort keys (JavaScript `aValue > bValue`; keys built by
`sortKey` always have matching shapes, mismatched shapes compare false). -/
def sortKeyGT : SortKeyVal → SortKeyVal → Bool
  | SortKeyVal.str a, SortKeyVal.str b => decide (b < a)
  | SortKeyVal.num a, SortKeyVal.num b => decide (b < a)
  | SortKeyVal.time a, SortKeyVal.time b => decide (b < a)
  | _, _ => false

/-- Strict `<` on sort keys (JavaScript `aValue < bValue`). -/
def sortKeyLT : SortKeyVal → SortKeyVal → Bool
  | SortKeyVal.str a, SortKeyVal.str b => decide (a < b)
  | SortKeyVal.num a, SortKeyVal.num b => decide (a < b)
  | SortKeyVal.time a, SortKeyVal.time b => decide (a < b)
  | _, _ => false

/-- The GET handler's sort comparator: `1` or `-1`, never `0` — ascending
order returns `aValue > bValue ? 1 : -1`, descending `aValue < bValue ? 1 :
-1`.  Two records with equal sort keys compare `-1` in both argument orders,
so this comparator is not a consistent comparison function in the
ECMAScript sense. -/
def compareAnalyses (filters : AnalysisFilters) (a b : SavedAnalysis) : Int :=
  if filters.sortOrder == SortOrder.asc then
    if sortKeyGT (sortKey filters a) (sortKey filters b) then 1 else -1
  else
    if sortKeyLT (sortKey filters a) (sortKey filters b) then 1 else -1

/-- The sort step.  Because the comparator is inconsistent (it never returns
`0`), ECMAScript leaves the resulting order implementation-defined; the model
commits to the stable insertion sort w.r.t. `comparator ≤ 0`. -/
def sortAnalyses (filters : AnalysisFilters) (l : List SavedAnalysis) :
    List SavedAnalysis :=
  sortByLe (fun a b => decide (compareAnalyses filters a b ≤ 0)) l

/-- The full GET pipeline on an already-fetched record list: filter, sort,
slice `[(page-1)*pageSize, (page-1)*pageSize + pageSize)`, and assemble the
response with the pre-pagination match count and
`hasMore = endIndex < total`.  `page` is 1-based; the model's `Nat`
subtraction agrees with the source for every `page ≥ 1`. -/
def listQuery (filters : AnalysisFilters) (page pageSize : Nat)
    (analyses : List SavedAnalysis) : AnalysisListResponse :=
  let filteredAnalyses := applyFilters filters analyses
  let sorted := sortAnalyses filters filteredAnalyses
  let startIndex := (page - 1) * pageSize
  let endIndex := startIndex + pageSize
  let paginatedAnalyses := (sorted.drop startIndex).take pageSize
  { analyses := paginatedAnalyses
    total := filteredAnalyses.length
    page := page
    pageSize := pageSize
    hasMore := decide (endIndex < filteredAnalyses.length) }

/-- The GET handler's default filter value: every optional field unsupplied,
`sortBy = updated_at`, `sortOrder = desc`. -/
def defaultFilters : AnalysisFilters :=
  { search := none, status := none, dateFrom := none, dateTo := none
    minValue := none, maxValue := none, bedrooms := none, bathrooms := none
    tags := none, sortBy := SortBy.updated_at, sortOrder := SortOrder.desc }

/-! ## Concrete sample records (for witnesses and counterexamples) -/

/-- A concrete `property` value. -/
def sampleProperty : Property :=
  { address := "Av. Providencia 123"
    value_clp := 95000000
    value_uf := none
    size_m2 := 75
    bedrooms := 2
    bathrooms := 1
    parking_spaces := 1
    storage_units := 0 }

/-- A concrete `analysis` value. -/
def sampleSection : AnalysisSection :=
  { suggested_rent_clp := some 850000
    suggested_rent_uf := none
    rent_currency := Currency.CLP
    capture_price_clp := none
    capture_price_uf := none
    capture_price_currency := none
    comparable_properties := []
    annual_expenses := { maintenance_clp := 0, property_tax_clp := 0, insurance_clp := 0 }
    uf_value_clp := 38000 }

/-- A concrete `calculations` value. -/
def sampleCalculations : Calculations :=
  { cap_rate := 8
    annual_rental_yield := 10
    monthly_net_income := 650000
    vacancy_cost_per_month := 70000
    break_even_rent_reduction := 8
    plan_comparisons := [] }

/-- A concrete record builder: identifier, creation/update times, tag set and
status vary; the rest is fixed sample data. -/
def mkRecord (id : String) (created updated : Nat) (tags : Option (List String))
    (status : Status) : SavedAnalysis :=
  { id := id
    title := "Análisis " ++ id
    property := sampleProperty
    analysis := sampleSection
    calculations := sampleCalculations
    metadata :=
      { created_at := created
        updated_at := updated
        broker_email := "corredor@ejemplo.com"
        status := status
        tags := tags
        notes := none } }

/-- A record tagged `['a','b']`. -/
def recTagAB : SavedAnalysis := mkRecord "1" 10 10 (some ["a", "b"]) Status.draft

/-- A record tagged `['c']`. -/
def recTagC : SavedAnalysis := mkRecord "2" 20 20 (some ["c"]) Status.draft

/-- A record with the empty tag list. -/
def recTagEmpty : SavedAnalysis := mkRecord "3" 30 30 (some []) Status.draft

/-- An available store with an empty collection. -/
def emptyStore : LocalStore :=
  { available := true, analyses := [], dashboard := none }

/-- A record whose caller-supplied `updated_at` lies in the past. -/
def recStale : SavedAnalysis := mkRecord "s1" 0 0 none Status.draft

/-- A store whose availability flag is off (headless execution context). -/
def unavailableStore : LocalStore :=
  { available := false, analyses := [recTagC], dashboard := none }

/-- An available store holding the single record `recTagAB` (id `"1"`). -/
def singleStore : LocalStore :=
  { available := true, analyses := [recTagAB], dashboard := none }

/-- The empty cache. -/
def emptyCache : AnalysisCache := { entries := [], listAll := none }

/-- An existing record with `created_at = 1`. -/
def recBase : SavedAnalysis := mkRecord "e1" 1 1 none Status.draft

/-- A repository state holding only `recBase`. -/
def stC3 : RepoState :=
  { store := { available := true, analyses := [recBase], dashboard := none }
    cache := emptyCache }

/-- A partial update whose metadata carries a foreign `created_at`. -/
def updC3 : PartialSavedAnalysis :=
  { PartialSavedAnalysis.empty with
    metadata := some { recBase.metadata with created_at := 99 } }

/-- Twelve draft records with distinct ids and times. -/
def sample12 : List SavedAnalysis :=
  (List.range 12).map fun i => mkRecord (toString i) i i none Status.draft

/-- Two distinct records with identical `updated_at`. -/
def recTieX : SavedAnalysis := mkRecord "x1" 5 100 none Status.draft

/-- Second record of the tie (different id, same `updated_at`). -/
def recTieY : SavedAnalysis := mkRecord "y1" 6 100 none Status.draft

/-- The in-place mutation `updateStatus` applies to the found record. -/
def withStatus (a : SavedAnalysis) (status : Status) (now : Nat) :
    SavedAnalysis :=
  { a with metadata := { a.metadata with status := status, updated_at := now } }

/-- A repository state whose cache already holds a list, over the
single-record store of `stC3`. -/
def stC5 : RepoState :=
  { store := { available := true, analyses := [recBase], dashboard := none }
    cache := { entries := [], listAll := some ([recBase], 0) } }

/-! ## C1 — the empty tag filter -/

/-- C1, counterexample: the claim says a list query whose tag filter is the
empty set returns zero records even when every stored record has tags.  On
the code, the tag stage is guarded by `filters.tags.length > 0`, so an empty
tag filter is skipped: over the single record tagged `['a','b']` the query
returns that record (1 record, not 0). -/
theorem c1_empty_tag_filter_counterexample :
    recTagAB.metadata.tags = some ["a", "b"] ∧
    (listQuery { defaultFilters with tags := some [] } 1 10 [recTagAB]).analyses
      = [recTagAB] ∧
    (listQuery { defaultFilters with tags := some [] } 1 10 [recTagAB]).total
      = 1 :=
  ⟨rfl, rfl, rfl⟩

/-- C1 (amended): a list query whose tag filter is the empty set applies no
tag constraint at all — it returns exactly what the same query with no tag
filter returns; a non-empty tag filter matches a record iff the record has at
least one tag in the filter's tag set; and the tag filter `['a']` over
records tagged `['a','b']`, `['c']` and `[]` returns exactly the record
tagged `['a','b']`. -/
theorem c1_tag_filter_amended :
    (∀ (f : AnalysisFilters) (page pageSize : Nat) (l : List SavedAnalysis),
      listQuery { f with tags := some [] } page pageSize l
        = listQuery { f with tags := none } page pageSize l) ∧
    (∀ (ts : List String) (l : List SavedAnalysis) (a : SavedAnalysis),
      ts ≠ [] →
      (a ∈ applyFilters { defaultFilters with tags := some ts } l ↔
        a ∈ l ∧ (ts.any fun tag =>
          match a.metadata.tags with
          | some recordTags => recordTags.contains tag
          | none => false) = true)) ∧
    (listQuery { defaultFilters with tags := some ["a"] } 1 10
        [recTagAB, recTagC, recTagEmpty]).analyses = [recTagAB] ∧
    (listQuery { defaultFilters with tags := some ["a"] } 1 10
        [recTagAB, recTagC, recTagEmpty]).total = 1 := by
  refine ⟨fun f page pageSize l => rfl, ?_, ?_, ?_⟩
  · intro ts l a hts
    have hlen : 0 < ts.length := List.length_pos.mpr hts
    have h1 : applyFilters { defaultFilters with tags := some ts } l
        = if 0 < ts.length then
            (l.filter fun a => ts.any fun tag =>
              match a.metadata.tags with
              | some recordTags => recordTags.contains tag
              | none => false)
          else l := rfl
    rw [h1, if_pos hlen, List.mem_filter]
  · rfl
  · rfl

/-- C1 (amended), witness at `ts = ["a"]`. -/
theorem c1_tag_filter_amended_witness :
    (["a"] ≠ ([] : List String)) ∧
    (recTagAB ∈ applyFilters { defaultFilters with tags := some ["a"] }
        [recTagAB] ↔
      recTagAB ∈ [recTagAB] ∧ ((["a"]).any fun tag =>
        match recTagAB.metadata.tags with
        | some recordTags => recordTags.contains tag
        | none => false) = true) :=
  ⟨by decide, c1_tag_filter_amended.2.1 ["a"] [recTagAB] recTagAB (by decide)⟩

/-! ## C9 — falsy filter values are skipped -/

/-- C9: a numeric filter value of `0` (for `minValue`, `maxValue`,
`bedrooms`, `bathrooms`) and an empty search string are treated exactly like
an unspecified filter — each stage is guarded by JavaScript truthiness, so
the query result is identical to the query with the field unspecified. -/
theorem c9_falsy_filters_skipped :
    ∀ (f : AnalysisFilters) (page pageSize : Nat) (l : List SavedAnalysis),
      listQuery { f with minValue := some 0 } page pageSize l
        = listQuery { f with minValue := none } page pageSize l ∧
      listQuery { f with maxValue := some 0 } page pageSize l
        = listQuery { f with maxValue := none } page pageSize l ∧
      listQuery { f with bedrooms := some 0 } page pageSize l
        = listQuery { f with bedrooms := none } page pageSize l ∧
      listQuery { f with bathrooms := some 0 } page pageSize l
        = listQuery { f with bathrooms := none } page pageSize l ∧
      listQuery { f with search := some "" } page pageSize l
        = listQuery { f with search := none } page pageSize l := by
  intro f page pageSize l
  exact ⟨rfl, rfl, rfl, rfl, rfl⟩

/-! ## Helper lemmas about the list primitives -/

theorem length_insertSorted (le : α → α → Bool) (x : α) (l : List α) :
    (insertSorted le x l).length = l.length + 1 := by
  induction l with
  | nil => rfl
  | cons y t ih =>
    simp only [insertSorted]
    split
    · rfl
    · simp [ih]

theorem length_sortByLe (le : α → α → Bool) (l : List α) :
    (sortByLe le l).length = l.length := by
  induction l with
  | nil => rfl
  | cons x t ih => simp [sortByLe, length_insertSorted, ih]

theorem findIndexBy_none {p : SavedAnalysis → Bool} {l : List SavedAnalysis}
    (h : findIndexBy p l = none) : ∀ a ∈ l, p a = false := by
  induction l with
  | nil => simp
  | cons x t ih =>
    by_cases hx : p x
    · simp [findIndexBy, hx] at h
    · simp only [findIndexBy, if_neg hx, Option.map_eq_none'] at h
      intro a ha
      rcases List.mem_cons.mp ha with rfl | hat
      · exact Bool.eq_false_iff.mpr hx
      · exact ih h a hat

theorem findIndexBy_get {p : SavedAnalysis → Bool} {l : List SavedAnalysis}
    {i : Nat} (h : findIndexBy p l = some i) :
    ∃ a, l[i]? = some a ∧ p a = true := by
  induction l generalizing i with
  | nil => simp [findIndexBy] at h
  | cons x t ih =>
    by_cases hx : p x
    · simp only [findIndexBy, if_pos hx, Option.some.injEq] at h
      exact ⟨x, by simp [← h], hx⟩
    · simp only [findIndexBy, if_neg hx, Option.map_eq_some'] at h
      obtain ⟨j, hj, rfl⟩ := h
      obtain ⟨a, ha, hpa⟩ := ih hj
      exact ⟨a, by simpa using ha, hpa⟩

theorem find?_set_of_findIndexBy {p : SavedAnalysis → Bool}
    {l : List SavedAnalysis} {i : Nat} {x : SavedAnalysis}
    (h : findIndexBy p l = some i) (hx : p x = true) :
    (l.set i x).find? p = some x := by
  induction l generalizing i with
  | nil => simp [findIndexBy] at h
  | cons y t ih =>
    by_cases hy : p y
    · simp only [findIndexBy, if_pos hy, Option.some.injEq] at h
      subst h
      simp [List.find?_cons_of_pos, hx]
    · simp only [findIndexBy, if_neg hy, Option.map_eq_some'] at h
      obtain ⟨j, hj, rfl⟩ := h
      simpa [List.find?_cons_of_neg, hy] using ih hj

theorem mem_set_of_findIndexBy {p : SavedAnalysis → Bool}
    {l : List SavedAnalysis} {i : Nat} (x : SavedAnalysis)
    (h : findIndexBy p l = some i) : x ∈ l.set i x := by
  induction l generalizing i with
  | nil => simp [findIndexBy] at h
  | cons y t ih =>
    by_cases hy : p y
    · simp only [findIndexBy, if_pos hy, Option.some.injEq] at h
      subst h
      simp
    · simp only [findIndexBy, if_neg hy, Option.map_eq_some'] at h
      obtain ⟨j, hj, rfl⟩ := h
      simpa using Or.inr (ih hj)

theorem find?_append_of_forall_false {p : SavedAnalysis → Bool}
    {l l' : List SavedAnalysis} (h : ∀ a ∈ l, p a = false) :
    (l ++ l').find? p = l'.find? p := by
  induction l with
  | nil => rfl
  | cons x t ih =>
    have hx : p x = false := h x (List.mem_cons_self x t)
    simpa [List.find?_cons_of_neg, hx] using
      ih fun a ha => h a (List.mem_cons_of_mem x ha)

theorem mem_set_unique_id {l : List SavedAnalysis} {i : Nat} {id0 : String}
    {x : SavedAnalysis}
    (h : findIndexBy (fun a => a.id == id0) l = some i)
    (hnd : (l.map (fun a => a.id)).Nodup) (hx : x.id = id0) :
    ∀ b ∈ l.set i x, b.id = id0 → b = x := by
  induction l generalizing i with
  | nil => simp [findIndexBy] at h
  | cons y t ih =>
    simp only [List.map_cons, List.nodup_cons] at hnd
    by_cases hy : y.id == id0
    · simp only [findIndexBy, if_pos hy, Option.some.injEq] at h
      subst h
      intro b hb hbid
      rcases List.mem_cons.mp hb with rfl | hbt
      · rfl
      · exfalso
        apply hnd.1
        have : y.id = id0 := by simpa using hy
        rw [this, ← hbid]
        exact List.mem_map.mpr ⟨b, hbt, rfl⟩
    · simp only [findIndexBy, if_neg hy, Option.map_eq_some'] at h
      obtain ⟨j, hj, rfl⟩ := h
      intro b hb hbid
      rcases List.mem_cons.mp hb with rfl | hbt
      · exact absurd (by simpa using hbid) (by simpa using hy)
      · exact ih hj hnd.2 b hbt hbid

/-! ## Preservation lemmas about the storage adapter -/

namespace AnalysisStorage

theorem updateDashboardStats_available (s : LocalStore) :
    (updateDashboardStats s).available = s.available := by
  unfold updateDashboardStats
  split <;> rfl

theorem updateDashboardStats_analyses (s : LocalStore) :
    (updateDashboardStats s).analyses = s.analyses := by
  unfold updateDashboardStats
  split <;> rfl

theorem getDashboardData_available (s : LocalStore) :
    (getDashboardData s).2.available = s.available := by
  unfold getDashboardData
  split
  · rfl
  · split
    · rfl
    · cases h2 : (updateDashboardStats s).dashboard <;>
        simp [h2, updateDashboardStats_available]

theorem getDashboardData_analyses (s : LocalStore) :
    (getDashboardData s).2.analyses = s.analyses := by
  unfold getDashboardData
  split
  · rfl
  · split
    · rfl
    · cases h2 : (updateDashboardStats s).dashboard <;>
        simp [h2, updateDashboardStats_analyses]

theorem addDashboardActivity_available (activity : DashboardActivity)
    (s : LocalStore) :
    (addDashboardActivity activity s).available = s.available := by
  unfold addDashboardActivity
  split
  · rfl
  · simpa using getDashboardData_available s

theorem addDashboardActivity_analyses (activity : DashboardActivity)
    (s : LocalStore) :
    (addDashboardActivity activity s).analyses = s.analyses := by
  unfold addDashboardActivity
  split
  · rfl
  · simpa using getDashboardData_analyses s

/-- The collection written by a successful `save` on an available store:
replacement of the first id match with the stamped record, else append. -/
theorem save_characterization {s : LocalStore} (r : SavedAnalysis) (now : Nat)
    (hav : s.available = true) :
    (save r now s).1 = true ∧
    (save r now s).2.available = true ∧
    (save r now s).2.analyses
      = (match findIndexBy (fun a => a.id == r.id) s.analyses with
        | some i => s.analyses.set i (stampUpdated r now)
        | none => s.analyses ++ [r]) := by
  refine ⟨?_, ?_, ?_⟩
  · simp [save, getAll, hav]
  · simp [save, getAll, hav, updateDashboardStats_available]
  · simp [save, getAll, hav, updateDashboardStats_analyses]

end AnalysisStorage

/-! ## C2 — save / getById round trip -/

/-- C2, counterexample: the claim says `save(r)` followed by `getById(r.id)`
always returns `r` with `updated_at` refreshed to a time ≥ the pre-save
time.  On the code, `save` stamps `updated_at` only on the replace branch of
its upsert: a record whose id is new is appended unchanged, so saving
`recStale` (whose `updated_at` is 0) at time 100 into an empty store and
reading it back yields `updated_at = 0 < 100`. -/
theorem c2_save_refresh_counterexample :
    AnalysisStorage.getById recStale.id
        (AnalysisStorage.save recStale 100 emptyStore).2 = some recStale ∧
    recStale.metadata.updated_at = 0 ∧
    ¬(100 ≤ recStale.metadata.updated_at) :=
  ⟨rfl, rfl, by decide⟩

/-- C2 (amended): on an available store, `save(r)` followed by
`getById(r.id)` returns the record just written: when no stored record has
id `r.id`, it is exactly `r`, with the caller's `updated_at` untouched; when
a stored record has id `r.id`, it is `r` with `updated_at` forcibly stamped
to the save time (which is ≥ the pre-save time). -/
theorem c2_save_getById_amended (s : LocalStore) (r : SavedAnalysis)
    (now : Nat) (hav : s.available = true) :
    ((∀ a ∈ s.analyses, a.id ≠ r.id) →
      AnalysisStorage.getById r.id (AnalysisStorage.save r now s).2 = some r) ∧
    ((∃ a ∈ s.analyses, a.id = r.id) →
      AnalysisStorage.getById r.id (AnalysisStorage.save r now s).2
        = some (stampUpdated r now) ∧
      (stampUpdated r now).metadata.updated_at = now) := by
  obtain ⟨-, hav', hanal⟩ := AnalysisStorage.save_characterization r now hav
  constructor
  · intro hno
    have hidx : findIndexBy (fun a => a.id == r.id) s.analyses = none := by
      cases hfi : findIndexBy (fun a => a.id == r.id) s.analyses with
      | none => rfl
      | some i =>
        obtain ⟨a, ha, hpa⟩ := findIndexBy_get hfi
        exact absurd (by simpa using hpa) (hno a (List.getElem?_mem ha))
    rw [hidx] at hanal
    have hfind : ((AnalysisStorage.save r now s).2.analyses).find?
        (fun a => a.id == r.id) = some r := by
      rw [hanal, find?_append_of_forall_false
        (fun a ha => by simpa using hno a ha)]
      simp [List.find?_cons_of_pos]
    simpa [AnalysisStorage.getById, AnalysisStorage.getAll, hav'] using hfind
  · intro hex
    have hidx : ∃ i, findIndexBy (fun a => a.id == r.id) s.analyses = some i := by
      cases hfi : findIndexBy (fun a => a.id == r.id) s.analyses with
      | none =>
        obtain ⟨a, ha, haid⟩ := hex
        have := findIndexBy_none hfi a ha
        simp [haid] at this
      | some i => exact ⟨i, rfl⟩
    obtain ⟨i, hidx⟩ := hidx
    rw [hidx] at hanal
    have hfind : ((AnalysisStorage.save r now s).2.analyses).find?
        (fun a => a.id == r.id) = some (stampUpdated r now) := by
      rw [hanal]
      exact find?_set_of_findIndexBy hidx (by simp [stampUpdated])
    refine ⟨?_, rfl⟩
    simpa [AnalysisStorage.getById, AnalysisStorage.getAll, hav'] using hfind

/-- C2 (amended), witness: the fresh-id branch at `recStale`, `now = 100`,
the empty store, and the existing-id branch after that save at `now = 200`. -/
theorem c2_save_getById_amended_witness :
    (emptyStore.available = true ∧
      (∀ a ∈ emptyStore.analyses, a.id ≠ recStale.id) ∧
      AnalysisStorage.getById recStale.id
        (AnalysisStorage.save recStale 100 emptyStore).2 = some recStale) ∧
    ((AnalysisStorage.save recStale 100 emptyStore).2.available = true ∧
      AnalysisStorage.getById recStale.id
        (AnalysisStorage.save recStale 200
          (AnalysisStorage.save recStale 100 emptyStore).2).2
        = some (stampUpdated recStale 200)) :=
  ⟨⟨rfl, by decide,
    (c2_save_getById_amended emptyStore recStale 100 rfl).1 (by decide)⟩,
   ⟨rfl,
    ((c2_save_getById_amended (AnalysisStorage.save recStale 100 emptyStore).2
      recStale 200 rfl).2 (by decide)).1⟩⟩

/-! ## C8 — unavailable store degrades without raising -/

/-- C8: when the underlying store is unavailable, every read returns an
empty/absent result (`getAll` empty, `getById` absent, the dashboard read
zeroed) and every write returns a failure value while leaving the store
untouched; every operation is a total function, so nothing is raised. -/
theorem c8_unavailable_store_degrades (s : LocalStore)
    (hun : s.available = false) :
    AnalysisStorage.getAll s = [] ∧
    (∀ id, AnalysisStorage.getById id s = none) ∧
    AnalysisStorage.getDashboardData s = (emptyDashboardData, s) ∧
    (∀ r now, AnalysisStorage.save r now s = (false, s)) ∧
    (∀ id, AnalysisStorage.delete id s = (false, s)) ∧
    (∀ id status now, AnalysisStorage.updateStatus id status now s = (false, s)) ∧
    AnalysisStorage.clearAll s = (false, s) := by
  refine ⟨?_, ?_, ?_, ?_, ?_, ?_, ?_⟩ <;>
    simp [AnalysisStorage.getAll, AnalysisStorage.getById,
      AnalysisStorage.getDashboardData, AnalysisStorage.save,
      AnalysisStorage.delete, AnalysisStorage.updateStatus,
      AnalysisStorage.clearAll, findIndexBy, hun]

/-- C8, witness at the concrete unavailable store. -/
theorem c8_unavailable_store_degrades_witness :
    unavailableStore.available = false ∧
    AnalysisStorage.getAll unavailableStore = [] ∧
    AnalysisStorage.getById "2" unavailableStore = none ∧
    AnalysisStorage.save recStale 5 unavailableStore = (false, unavailableStore) ∧
    AnalysisStorage.delete "2" unavailableStore = (false, unavailableStore) :=
  ⟨rfl,
   (c8_unavailable_store_degrades unavailableStore rfl).1,
   (c8_unavailable_store_degrades unavailableStore rfl).2.1 "2",
   (c8_unavailable_store_degrades unavailableStore rfl).2.2.2.1 recStale 5,
   (c8_unavailable_store_degrades unavailableStore rfl).2.2.2.2.1 "2"⟩

/-! ## C10 — delete of a nonexistent id still succeeds -/

/-- C10: on an available store, the adapter's `delete(id)` returns `true`
even when no stored record has that id — the collection is rewritten
unchanged and the dashboard statistics are still recomputed, so a successful
delete does not imply a record was removed. -/
theorem c10_delete_missing_id_succeeds (s : LocalStore) (id : String)
    (hav : s.available = true) (hno : ∀ a ∈ s.analyses, a.id ≠ id) :
    AnalysisStorage.delete id s
      = (true, { s with dashboard := some (AnalysisStorage.computeDashboardData s) }) := by
  obtain ⟨av, analyses, dashboard⟩ := s
  subst hav
  have hfilter : analyses.filter (fun a => !(a.id == id)) = analyses := by
    rw [List.filter_eq_self]
    intro a ha
    simpa using hno a ha
  simp [AnalysisStorage.delete, AnalysisStorage.getAll, hfilter,
    AnalysisStorage.updateDashboardStats]

/-- C10, witness: deleting the absent id `"zzz"`. -/
theorem c10_delete_missing_id_succeeds_witness :
    singleStore.available = true ∧
    (∀ a ∈ singleStore.analyses, a.id ≠ "zzz") ∧
    AnalysisStorage.delete "zzz" singleStore
      = (true, { singleStore with dashboard := some (AnalysisStorage.computeDashboardData singleStore) }) :=
  ⟨rfl, by decide,
   c10_delete_missing_id_succeeds singleStore "zzz" rfl (by decide)⟩

/-! ## C3 — partial update and the id / created_at invariants -/

/-- C3, counterexample: the claim says the update operation leaves
`metadata.created_at` unchanged regardless of caller input.  On the code,
`updateAnalysis` merges `{...existing.metadata, ...updates.metadata,
updated_at: now}`, so a caller-supplied metadata object overrides
`created_at`: updating `recBase` (stored `created_at = 1`) with a metadata
carrying `created_at = 99` stores and returns `created_at = 99`. -/
theorem c3_update_created_at_counterexample :
    recBase.metadata.created_at = 1 ∧
    ((updateAnalysis "e1" updC3 50 stC3).1.map fun u =>
      u.metadata.created_at) = some 99 ∧
    ((AnalysisStorage.getById "e1" (updateAnalysis "e1" updC3 50 stC3).2.store).map
      fun u => u.metadata.created_at) = some 99 :=
  ⟨rfl, rfl, rfl⟩

/-- C3 (amended): for an existing record on an available store, the update
operation always forces `metadata.updated_at` to now, but it preserves the
stored `id` and `metadata.created_at` only when the caller's partial omits
them — a caller-supplied top-level `id` replaces the id, and a
caller-supplied `metadata` object (which carries `created_at`) replaces
`created_at`. -/
theorem c3_update_amended (st : RepoState) (id : String)
    (upd : PartialSavedAnalysis) (now : Nat) (existing : SavedAnalysis)
    (hfound : AnalysisStorage.getById id st.store = some existing)
    (hav : st.store.available = true) :
    ∃ u, (updateAnalysis id upd now st).1 = some u ∧
      u.metadata.updated_at = now ∧
      u.id = upd.id.getD existing.id ∧
      u.metadata.created_at = (upd.metadata.getD existing.metadata).created_at ∧
      (upd.id = none → u.id = existing.id) ∧
      (upd.metadata = none → u.metadata.created_at = existing.metadata.created_at) := by
  have hsv := AnalysisStorage.save_characterization
    (mergeUpdate existing upd now) now hav
  have he : AnalysisStorage.save (mergeUpdate existing upd now) now st.store
      = (true, (AnalysisStorage.save (mergeUpdate existing upd now) now st.store).2) := by
    rw [← hsv.1]
  refine ⟨mergeUpdate existing upd now, ?_, rfl, rfl, rfl,
    fun h1 => by simp [mergeUpdate, h1],
    fun h2 => by simp [mergeUpdate, h2]⟩
  simp only [updateAnalysis, hfound]
  rw [he]
  rfl

/-- C3 (amended), witness: the empty partial on `stC3`. -/
theorem c3_update_amended_witness :
    (AnalysisStorage.getById "e1" stC3.store = some recBase ∧
      stC3.store.available = true) ∧
    (∃ u, (updateAnalysis "e1" PartialSavedAnalysis.empty 7 stC3).1 = some u ∧
      u.metadata.updated_at = 7 ∧
      u.id = PartialSavedAnalysis.empty.id.getD recBase.id ∧
      u.metadata.created_at
        = (PartialSavedAnalysis.empty.metadata.getD recBase.metadata).created_at ∧
      (PartialSavedAnalysis.empty.id = none → u.id = recBase.id) ∧
      (PartialSavedAnalysis.empty.metadata = none →
        u.metadata.created_at = recBase.metadata.created_at)) :=
  ⟨⟨rfl, rfl⟩,
   c3_update_amended stC3 "e1" PartialSavedAnalysis.empty 7 recBase rfl rfl⟩

/-! ## C6 — pagination contract -/

/-- C6: for every filter set and every `page ≥ 1`, the list query returns
the slice `[(page-1)*pageSize, page*pageSize)` of the sorted filtered
records, reports the pre-pagination match count as `total`, sets
`hasMore = (page*pageSize < total)`, returns `min pageSize (total - start)`
records, and a page beyond the data yields an empty slice with
`hasMore = false` rather than an error. -/
theorem c6_pagination_contract (f : AnalysisFilters) (page pageSize : Nat)
    (l : List SavedAnalysis) (hpage : 1 ≤ page) :
    (listQuery f page pageSize l).total = (applyFilters f l).length ∧
    (listQuery f page pageSize l).analyses
      = ((sortAnalyses f (applyFilters f l)).drop
          ((page - 1) * pageSize)).take pageSize ∧
    (listQuery f page pageSize l).hasMore
      = decide (page * pageSize < (applyFilters f l).length) ∧
    (listQuery f page pageSize l).analyses.length
      = min pageSize ((applyFilters f l).length - (page - 1) * pageSize) ∧
    ((applyFilters f l).length ≤ (page - 1) * pageSize →
      (listQuery f page pageSize l).analyses = [] ∧
      (listQuery f page pageSize l).hasMore = false) := by
  have hmul : (page - 1) * pageSize + pageSize = page * pageSize := by
    calc (page - 1) * pageSize + pageSize = ((page - 1) + 1) * pageSize := by ring
    _ = page * pageSize := by rw [Nat.sub_add_cancel hpage]
  have hslen : (sortAnalyses f (applyFilters f l)).length
      = (applyFilters f l).length := length_sortByLe _ _
  refine ⟨rfl, rfl, ?_, ?_, ?_⟩
  · simp [listQuery, hmul]
  · simp [listQuery, List.length_take, List.length_drop, hslen]
  · intro hle
    have hd : (sortAnalyses f (applyFilters f l)).drop
        ((page - 1) * pageSize) = [] :=
      List.drop_eq_nil_of_le (by rw [hslen]; exact hle)
    constructor
    · simp [listQuery, hd]
    · have hnot : ¬((page - 1) * pageSize + pageSize
          < (applyFilters f l).length) := by omega
      simp [listQuery, hnot]

/-- C6, witness: 12 matching records, `pageSize = 5`: `page = 3` gives 2
records with `hasMore = false`, `page = 1` gives 5 with `hasMore = true`. -/
theorem c6_pagination_contract_witness :
    1 ≤ 3 ∧
    (listQuery defaultFilters 3 5 sample12).total
      = (applyFilters defaultFilters sample12).length ∧
    (listQuery defaultFilters 3 5 sample12).total = 12 ∧
    (listQuery defaultFilters 3 5 sample12).analyses.length = 2 ∧
    (listQuery defaultFilters 3 5 sample12).hasMore = false ∧
    (listQuery defaultFilters 1 5 sample12).analyses.length = 5 ∧
    (listQuery defaultFilters 1 5 sample12).hasMore = true :=
  ⟨by decide,
   (c6_pagination_contract defaultFilters 3 5 sample12 (by decide)).1,
   by decide, by decide, by decide, by decide, by decide⟩

/-! ## C7 — the sort comparator on tied records -/

/-- C7 (code bug): the spec requires ties to retain their pre-sort relative
order.  The route's comparator `aValue > bValue ? 1 : -1` (resp. `<` for
descending) never returns `0`: under the default descending `updated_at`
sort, two distinct records with identical `updated_at` compare `-1` in both
argument orders.  Such a comparator is not a consistent comparison function,
so `Array.prototype.sort`'s stability guarantee does not apply and engines
may (and do) reorder the tied records. -/
theorem c7_comparator_inconsistent_on_ties :
    recTieX ≠ recTieY ∧
    recTieX.metadata.updated_at = recTieY.metadata.updated_at ∧
    compareAnalyses defaultFilters recTieX recTieY = -1 ∧
    compareAnalyses defaultFilters recTieY recTieX = -1 ∧
    (∀ (f : AnalysisFilters) (a b : SavedAnalysis),
      compareAnalyses f a b ≠ 0) :=
  ⟨by decide, rfl, rfl, rfl, fun f a b => by
    unfold compareAnalyses
    split <;> split <;> decide⟩

/-! ## Characterization lemmas for the repository layer -/

theorem find?_filter_not_id (l : List SavedAnalysis) (id : String) :
    (l.filter fun a => !(a.id == id)).find? (fun a => a.id == id) = none := by
  rw [List.find?_eq_none]
  intro x hx
  have := (List.mem_filter.mp hx).2
  simpa using this

theorem cacheGet_invalidate_lists (c : AnalysisCache) (id : String)
    (now : Nat) : ((c.invalidate id).invalidateLists).get id now = none := by
  have hfind : ((c.invalidate id).invalidateLists).entries.find?
      (fun e => e.1 == id) = none := by
    rw [List.find?_eq_none]
    intro e he
    have hmem : e ∈ c.entries.filter (fun e => !(e.1 == id)) := he
    have := (List.mem_filter.mp hmem).2
    simpa using this
  simp [AnalysisCache.get, hfind]

theorem cacheSet_get (c : AnalysisCache) (id : String) (r : SavedAnalysis)
    (now : Nat) : ((c.set id r now).invalidateLists).get id now = some r := by
  have hfind : ((c.set id r now).invalidateLists).entries.find?
      (fun e => e.1 == id) = some (id, r, now) := by
    simp [AnalysisCache.set, AnalysisCache.invalidateLists,
      List.find?_cons_of_pos]
  simp only [AnalysisCache.get, hfind]
  rw [if_pos (by unfold cacheTTL; omega)]

theorem getAnalysisById_store (id : String) (now : Nat) (st : RepoState) :
    (getAnalysisById id now st).2.store = st.store := by
  unfold getAnalysisById
  split
  · rfl
  · split <;> rfl

theorem getAllAnalyses_of_listAll_none (now : Nat) (st : RepoState)
    (h : st.cache.listAll = none) :
    (getAllAnalyses now st).1 = AnalysisStorage.getAll st.store := by
  have hg : st.cache.getList now = none := by
    unfold AnalysisCache.getList
    rw [h]
  unfold getAllAnalyses
  rw [hg]

theorem delete_characterization {s : LocalStore} (id : String)
    (hav : s.available = true) :
    (AnalysisStorage.delete id s).1 = true ∧
    (AnalysisStorage.delete id s).2.available = true ∧
    (AnalysisStorage.delete id s).2.analyses
      = s.analyses.filter (fun a => !(a.id == id)) := by
  refine ⟨?_, ?_, ?_⟩ <;>
    simp [AnalysisStorage.delete, AnalysisStorage.getAll, hav,
      AnalysisStorage.updateDashboardStats_available,
      AnalysisStorage.updateDashboardStats_analyses]

theorem deleteAnalysis_characterization (id : String) (now : Nat)
    {st : RepoState} (hav : st.store.available = true) :
    (deleteAnalysis id now st).1 = true ∧
    (deleteAnalysis id now st).2.store.available = true ∧
    (deleteAnalysis id now st).2.store.analyses
      = st.store.analyses.filter (fun a => !(a.id == id)) ∧
    (deleteAnalysis id now st).2.cache
      = (st.cache.invalidate id).invalidateLists := by
  obtain ⟨h1, h2, h3⟩ := delete_characterization id (s := st.store) hav
  have he : AnalysisStorage.delete id st.store
      = (true, (AnalysisStorage.delete id st.store).2) := by
    rw [← h1]
  refine ⟨?_, ?_, ?_, ?_⟩ <;>
    · unfold deleteAnalysis
      rw [he]
      cases AnalysisStorage.getById id st.store <;>
        simp [AnalysisStorage.addDashboardActivity_available,
          AnalysisStorage.addDashboardActivity_analyses, h2, h3]

theorem saveAnalysis_characterization (r : SavedAnalysis) (now : Nat)
    {st : RepoState} (hav : st.store.available = true) :
    (saveAnalysis r now st).1 = Except.ok r ∧
    (saveAnalysis r now st).2.cache
      = (st.cache.set r.id r now).invalidateLists ∧
    (saveAnalysis r now st).2.store.available = true ∧
    (saveAnalysis r now st).2.store.analyses
      = (AnalysisStorage.save r now st.store).2.analyses := by
  obtain ⟨h1, h2, -⟩ := AnalysisStorage.save_characterization r now hav
  have he : AnalysisStorage.save r now st.store
      = (true, (AnalysisStorage.save r now st.store).2) := by
    rw [← h1]
  refine ⟨?_, ?_, ?_, ?_⟩ <;>
    · unfold saveAnalysis
      rw [he]
      simp [AnalysisStorage.addDashboardActivity_available,
        AnalysisStorage.addDashboardActivity_analyses, h2]

theorem updateAnalysis_characterization (id : String)
    (upd : PartialSavedAnalysis) (now : Nat) {st : RepoState}
    {existing : SavedAnalysis}
    (hfound : AnalysisStorage.getById id st.store = some existing)
    (hav : st.store.available = true) :
    (updateAnalysis id upd now st).1 = some (mergeUpdate existing upd now) ∧
    (updateAnalysis id upd now st).2.cache
      = (st.cache.set id (mergeUpdate existing upd now) now).invalidateLists ∧
    (updateAnalysis id upd now st).2.store.available = true ∧
    (updateAnalysis id upd now st).2.store.analyses
      = (AnalysisStorage.save (mergeUpdate existing upd now) now st.store).2.analyses := by
  have hsv := AnalysisStorage.save_characterization
    (mergeUpdate existing upd now) now hav
  have he : AnalysisStorage.save (mergeUpdate existing upd now) now st.store
      = (true, (AnalysisStorage.save (mergeUpdate existing upd now) now st.store).2) := by
    rw [← hsv.1]
  refine ⟨?_, ?_, ?_, ?_⟩ <;>
    · simp only [updateAnalysis, hfound]
      rw [he]
      simp [hsv.2.1]

theorem save_mem_self {s : LocalStore} (r : SavedAnalysis) (now : Nat)
    (hav : s.available = true) (hst : stampUpdated r now = r) :
    r ∈ (AnalysisStorage.save r now s).2.analyses := by
  obtain ⟨-, -, hanal⟩ := AnalysisStorage.save_characterization r now hav
  rw [hanal]
  cases hfi : findIndexBy (fun a => a.id == r.id) s.analyses with
  | none => simp
  | some i =>
    show r ∈ s.analyses.set i (stampUpdated r now)
    rw [hst]
    exact mem_set_of_findIndexBy r hfi

theorem save_mem_id {s : LocalStore} (r : SavedAnalysis) (now : Nat)
    (hav : s.available = true) :
    ∃ a ∈ (AnalysisStorage.save r now s).2.analyses, a.id = r.id := by
  obtain ⟨-, -, hanal⟩ := AnalysisStorage.save_characterization r now hav
  rw [hanal]
  cases hfi : findIndexBy (fun a => a.id == r.id) s.analyses with
  | none => exact ⟨r, by simp, rfl⟩
  | some i =>
    exact ⟨stampUpdated r now, by simpa using mem_set_of_findIndexBy _ hfi, rfl⟩

theorem stamp_self {r : SavedAnalysis} {now : Nat}
    (h : r.metadata.updated_at = now) : stampUpdated r now = r := by
  cases r with
  | mk id title property analysis calculations metadata =>
    cases metadata
    simp_all [stampUpdated]

theorem updateAnalysisStatus_characterization (id : String) (status : Status)
    (now : Nat) {st : RepoState} {i : Nat}
    (hav : st.store.available = true)
    (hfi : findIndexBy (fun a => a.id == id) st.store.analyses = some i) :
    ∃ a, st.store.analyses[i]? = some a ∧ (a.id == id) = true ∧
      (updateAnalysisStatus id status now st).1 = true ∧
      (updateAnalysisStatus id status now st).2.cache
        = (st.cache.invalidate id).invalidateLists ∧
      (updateAnalysisStatus id status now st).2.store.available = true ∧
      (updateAnalysisStatus id status now st).2.store.analyses
        = st.store.analyses.set i (withStatus a status now) := by
  obtain ⟨a, ha, hpa⟩ := findIndexBy_get hfi
  have hgig : AnalysisStorage.getAll st.store = st.store.analyses := by
    simp [AnalysisStorage.getAll, hav]
  have hus : AnalysisStorage.updateStatus id status now st.store
      = (true, AnalysisStorage.addDashboardActivity
          { id := "activity_" ++ toString now
            type := ActivityType.rental_sent
            title := "Estado actualizado: " ++ AnalysisStorage.statusText status
            description := "Análisis \"" ++ a.title ++ "\" cambió a "
              ++ AnalysisStorage.statusText status
            date := now
            property_address := some a.property.address }
          { st.store with analyses := st.store.analyses.set i (withStatus a status now) }) := by
    simp [AnalysisStorage.updateStatus, withStatus, hgig, hfi, ha, hav]
  refine ⟨a, ha, hpa, ?_, ?_, ?_, ?_⟩ <;>
    simp [updateAnalysisStatus, hus, hav,
      AnalysisStorage.addDashboardActivity_available,
      AnalysisStorage.addDashboardActivity_analyses]

theorem updateAnalysisStatus_fail (id : String) (status : Status) (now : Nat)
    {st : RepoState}
    (hfi : findIndexBy (fun a => a.id == id)
      (AnalysisStorage.getAll st.store) = none) :
    (updateAnalysisStatus id status now st).1 = false := by
  have hs : AnalysisStorage.updateStatus id status now st.store
      = (false, st.store) := by
    simp [AnalysisStorage.updateStatus, hfi]
  simp [updateAnalysisStatus, hs]

/-! ## C4 — delete: forbidden on published, removal otherwise -/

/-- C4: when the (cache-first) lookup of the DELETE handler finds a record
with status `published`, the handler answers Forbidden (403) and the
persisted collection is untouched; for any other status on an available
store it answers OK with the deleted summary, after which the adapter lookup
is absent, the repository lookup is absent, and the repository list no
longer contains the id. -/
theorem c4_delete_route_contract (st : RepoState) (id : String)
    (now now' : Nat) (a : SavedAnalysis) (hid : id ≠ "")
    (hfound : (getAnalysisById id now st).1 = some a) :
    (a.metadata.status = Status.published →
      (deleteRoute id now st).1 = DeleteResult.forbidden ∧
      (deleteRoute id now st).2.store = st.store) ∧
    (a.metadata.status ≠ Status.published → st.store.available = true →
      (deleteRoute id now st).1
        = DeleteResult.ok a.id a.title a.property.address ∧
      AnalysisStorage.getById id (deleteRoute id now st).2.store = none ∧
      (getAnalysisById id now' (deleteRoute id now st).2).1 = none ∧
      ∀ b ∈ (getAllAnalyses now' (deleteRoute id now st).2).1, b.id ≠ id) := by
  have hideq : (id == "") = false := by simpa using hid
  rcases hq : getAnalysisById id now st with ⟨found, st₁⟩
  have hfd : found = some a := by rw [hq] at hfound; exact hfound
  subst hfd
  have hst1 : st₁.store = st.store := by
    have h := getAnalysisById_store id now st
    rw [hq] at h
    exact h
  constructor
  · intro hpub
    have hbeq : (a.metadata.status == Status.published) = true := by
      simpa using hpub
    have hroute : deleteRoute id now st = (DeleteResult.forbidden, st₁) := by
      simp [deleteRoute, hideq, hq, hbeq]
    rw [hroute]
    exact ⟨rfl, hst1⟩
  · intro hne hav
    have hbeq : (a.metadata.status == Status.published) = false := by
      simpa using hne
    have hav1 : st₁.store.available = true := by rw [hst1]; exact hav
    obtain ⟨hd1, hd2, hd3, hd4⟩ := deleteAnalysis_characterization id now hav1
    have he2 : deleteAnalysis id now st₁
        = (true, (deleteAnalysis id now st₁).2) := by
      rw [← hd1]
    have hroute : deleteRoute id now st
        = (DeleteResult.ok a.id a.title a.property.address,
          (deleteAnalysis id now st₁).2) := by
      simp only [deleteRoute, hideq, Bool.false_eq_true, if_false, hq, hbeq]
      rw [he2]
      rfl
    have hnone : AnalysisStorage.getById id (deleteAnalysis id now st₁).2.store
        = none := by
      unfold AnalysisStorage.getById
      have hga : AnalysisStorage.getAll (deleteAnalysis id now st₁).2.store
          = st₁.store.analyses.filter (fun x => !(x.id == id)) := by
        simp [AnalysisStorage.getAll, hd2, hd3]
      rw [hga]
      exact find?_filter_not_id _ id
    have hlist : (deleteAnalysis id now st₁).2.cache.listAll = none := by
      rw [hd4]
      rfl
    rw [hroute]
    refine ⟨rfl, hnone, ?_, ?_⟩
    · have hcget : (deleteAnalysis id now st₁).2.cache.get id now' = none := by
        rw [hd4]
        exact cacheGet_invalidate_lists st₁.cache id now'
      simp [getAnalysisById, hcget, hnone]
    · intro b hb
      rw [getAllAnalyses_of_listAll_none now' _ hlist] at hb
      have hga : AnalysisStorage.getAll (deleteAnalysis id now st₁).2.store
          = st₁.store.analyses.filter (fun x => !(x.id == id)) := by
        simp [AnalysisStorage.getAll, hd2, hd3]
      rw [hga] at hb
      have := (List.mem_filter.mp hb).2
      simpa using this

/-- C4, witness at the single-draft-record state `stC3` (the draft record
`recBase`, id `"e1"`). -/
theorem c4_delete_route_contract_witness :
    ("e1" ≠ "") ∧ ((getAnalysisById "e1" 0 stC3).1 = some recBase) ∧
    (recBase.metadata.status ≠ Status.published) ∧
    (stC3.store.available = true) ∧
    ((deleteRoute "e1" 0 stC3).1
      = DeleteResult.ok recBase.id recBase.title recBase.property.address) ∧
    (AnalysisStorage.getById "e1" (deleteRoute "e1" 0 stC3).2.store = none) ∧
    ((getAnalysisById "e1" 1 (deleteRoute "e1" 0 stC3).2).1 = none) :=
  ⟨by decide, rfl, by decide, rfl,
   ((c4_delete_route_contract stC3 "e1" 0 1 recBase (by decide) rfl).2
     (by decide) rfl).1,
   ((c4_delete_route_contract stC3 "e1" 0 1 recBase (by decide) rfl).2
     (by decide) rfl).2.1,
   ((c4_delete_route_contract stC3 "e1" 0 1 recBase (by decide) rfl).2
     (by decide) rfl).2.2.1⟩

/-! ## C5 — cache coherence after successful mutations -/

/-- C5: after every successful repository mutation (save, partial update,
delete, status update) the cached list slot is `none` (all cached lists
invalidated) and the mutated record's entry is invalidated or overwritten
with the mutation's record, so an immediately following `getAllAnalyses`
bypasses the cache, returns the freshly persisted collection, and reflects
the mutation — even if a list was cached before the mutation. -/
theorem c5_cache_coherence (st : RepoState) (now now' : Nat)
    (hav : st.store.available = true) :
    (∀ r : SavedAnalysis,
      (saveAnalysis r now st).1 = Except.ok r ∧
      (saveAnalysis r now st).2.cache.listAll = none ∧
      (saveAnalysis r now st).2.cache.get r.id now = some r ∧
      (getAllAnalyses now' (saveAnalysis r now st).2).1
        = (saveAnalysis r now st).2.store.analyses ∧
      ∃ a ∈ (getAllAnalyses now' (saveAnalysis r now st).2).1, a.id = r.id) ∧
    (∀ (id : String) (upd : PartialSavedAnalysis) (existing : SavedAnalysis),
      AnalysisStorage.getById id st.store = some existing →
      (updateAnalysis id upd now st).1 = some (mergeUpdate existing upd now) ∧
      (updateAnalysis id upd now st).2.cache.listAll = none ∧
      (updateAnalysis id upd now st).2.cache.get id now
        = some (mergeUpdate existing upd now) ∧
      (getAllAnalyses now' (updateAnalysis id upd now st).2).1
        = (updateAnalysis id upd now st).2.store.analyses ∧
      mergeUpdate existing upd now
        ∈ (getAllAnalyses now' (updateAnalysis id upd now st).2).1) ∧
    (∀ id : String,
      (deleteAnalysis id now st).1 = true ∧
      (deleteAnalysis id now st).2.cache.listAll = none ∧
      (deleteAnalysis id now st).2.cache.get id now' = none ∧
      (getAllAnalyses now' (deleteAnalysis id now st).2).1
        = (deleteAnalysis id now st).2.store.analyses ∧
      ∀ b ∈ (getAllAnalyses now' (deleteAnalysis id now st).2).1, b.id ≠ id) ∧
    (∀ (id : String) (status : Status),
      (updateAnalysisStatus id status now st).1 = true →
      (updateAnalysisStatus id status now st).2.cache.listAll = none ∧
      (updateAnalysisStatus id status now st).2.cache.get id now' = none ∧
      (getAllAnalyses now' (updateAnalysisStatus id status now st).2).1
        = (updateAnalysisStatus id status now st).2.store.analyses ∧
      (∃ b ∈ (getAllAnalyses now' (updateAnalysisStatus id status now st).2).1,
        b.id = id ∧ b.metadata.status = status) ∧
      ((st.store.analyses.map (fun a => a.id)).Nodup →
        ∀ b ∈ (getAllAnalyses now' (updateAnalysisStatus id status now st).2).1,
          b.id = id → b.metadata.status = status)) := by
  refine ⟨?_, ?_, ?_, ?_⟩
  · intro r
    obtain ⟨h1, h2, h3, h4⟩ := saveAnalysis_characterization r now hav
    have hlist : (saveAnalysis r now st).2.cache.listAll = none := by
      rw [h2]
      rfl
    have hget : (saveAnalysis r now st).2.cache.get r.id now = some r := by
      rw [h2]
      exact cacheSet_get st.cache r.id r now
    have hall : (getAllAnalyses now' (saveAnalysis r now st).2).1
        = (saveAnalysis r now st).2.store.analyses := by
      rw [getAllAnalyses_of_listAll_none now' _ hlist]
      simp [AnalysisStorage.getAll, h3]
    refine ⟨h1, hlist, hget, hall, ?_⟩
    rw [hall, h4]
    exact save_mem_id r now hav
  · intro id upd existing hfound
    obtain ⟨h1, h2, h3, h4⟩ :=
      updateAnalysis_characterization id upd now hfound hav
    have hlist : (updateAnalysis id upd now st).2.cache.listAll = none := by
      rw [h2]
      rfl
    have hget : (updateAnalysis id upd now st).2.cache.get id now
        = some (mergeUpdate existing upd now) := by
      rw [h2]
      exact cacheSet_get st.cache id (mergeUpdate existing upd now) now
    have hall : (getAllAnalyses now' (updateAnalysis id upd now st).2).1
        = (updateAnalysis id upd now st).2.store.analyses := by
      rw [getAllAnalyses_of_listAll_none now' _ hlist]
      simp [AnalysisStorage.getAll, h3]
    refine ⟨h1, hlist, hget, hall, ?_⟩
    rw [hall, h4]
    exact save_mem_self (mergeUpdate existing upd now) now hav (stamp_self rfl)
  · intro id
    obtain ⟨hd1, hd2, hd3, hd4⟩ := deleteAnalysis_characterization id now hav
    have hlist : (deleteAnalysis id now st).2.cache.listAll = none := by
      rw [hd4]
      rfl
    have hget : (deleteAnalysis id now st).2.cache.get id now' = none := by
      rw [hd4]
      exact cacheGet_invalidate_lists st.cache id now'
    have hall : (getAllAnalyses now' (deleteAnalysis id now st).2).1
        = (deleteAnalysis id now st).2.store.analyses := by
      rw [getAllAnalyses_of_listAll_none now' _ hlist]
      simp [AnalysisStorage.getAll, hd2]
    refine ⟨hd1, hlist, hget, hall, ?_⟩
    intro b hb
    rw [hall, hd3] at hb
    have := (List.mem_filter.mp hb).2
    simpa using this
  · intro id status hok
    cases hfi : findIndexBy (fun a => a.id == id) st.store.analyses with
    | none =>
      exfalso
      have hfi' : findIndexBy (fun a => a.id == id)
          (AnalysisStorage.getAll st.store) = none := by
        have hg : AnalysisStorage.getAll st.store = st.store.analyses := by
          simp [AnalysisStorage.getAll, hav]
        rw [hg]
        exact hfi
      have := updateAnalysisStatus_fail id status now hfi'
      rw [hok] at this
      exact Bool.noConfusion this
    | some i =>
      obtain ⟨a, ha, hpa, h1, h2, h3, h4⟩ :=
        updateAnalysisStatus_characterization id status now hav hfi
      have hlist : (updateAnalysisStatus id status now st).2.cache.listAll
          = none := by
        rw [h2]
        rfl
      have hget : (updateAnalysisStatus id status now st).2.cache.get id now'
          = none := by
        rw [h2]
        exact cacheGet_invalidate_lists st.cache id now'
      have hall : (getAllAnalyses now' (updateAnalysisStatus id status now st).2).1
          = (updateAnalysisStatus id status now st).2.store.analyses := by
        rw [getAllAnalyses_of_listAll_none now' _ hlist]
        simp [AnalysisStorage.getAll, h3]
      have haid : a.id = id := by simpa using hpa
      refine ⟨hlist, hget, hall, ?_, ?_⟩
      · refine ⟨withStatus a status now, ?_, ?_, rfl⟩
        · rw [hall, h4]
          exact mem_set_of_findIndexBy (withStatus a status now) hfi
        · simpa [withStatus] using haid
      · intro hnd b hb hbid
        rw [hall, h4] at hb
        have hb' := mem_set_unique_id hfi hnd
          (by simpa [withStatus] using haid) b hb hbid
        rw [hb']
        rfl

/-- C5, witness: a save and a delete on `stC5`, whose cache holds a
pre-mutation list. -/
theorem c5_cache_coherence_witness :
    stC5.store.available = true ∧
    stC5.cache.listAll = some ([recBase], 0) ∧
    (saveAnalysis recTagC 3 stC5).1 = Except.ok recTagC ∧
    (saveAnalysis recTagC 3 stC5).2.cache.listAll = none ∧
    (∃ a ∈ (getAllAnalyses 4 (saveAnalysis recTagC 3 stC5).2).1,
      a.id = recTagC.id) ∧
    (deleteAnalysis "e1" 3 stC5).2.cache.listAll = none ∧
    (∀ b ∈ (getAllAnalyses 4 (deleteAnalysis "e1" 3 stC5).2).1, b.id ≠ "e1") :=
  ⟨rfl, rfl,
   ((c5_cache_coherence stC5 3 4 rfl).1 recTagC).1,
   ((c5_cache_coherence stC5 3 4 rfl).1 recTagC).2.1,
   ((c5_cache_coherence stC5 3 4 rfl).1 recTagC).2.2.2.2,
   ((c5_cache_coherence stC5 3 4 rfl).2.2.1 "e1").2.1,
   ((c5_cache_coherence stC5 3 4 rfl).2.2.1 "e1").2.2.2.2⟩

end RentalAnalysis
